import Mathlib

/-!
# Verification of the virtual-node reconciler (`src/virtual_dom/vnode.rs`)

Shallow embedding of `VNode::apply` and `VNode::remove` from the repository.
Live DOM nodes are identified by numeric ids; `document().create_element` /
`create_text_node` are modelled by drawing a fresh id from a counter that is
threaded through the recursion.  Every mutation of the live tree is recorded
in an ordered trace of `DomOp` effects, in the order the source issues them.
The opaque `Messages<MSG>` channel is only cloned and forwarded by the source
and plays no role in any reconciliation decision, so it is not represented.
`panic!("redundant iterations during diff")` is modelled as `Except.error`.
-/

/-- A handle to a live DOM node (an `Element` or `TextNode` reference). -/
abbrev NodeId := Nat

/-- `VNode<MSG>`: a tagged variant binding a virtual descriptor to an optional
live DOM reference.  `VTag` carries the descriptor fields of `VTag<MSG>` that
`vnode.rs` consumes (`tag()` and `childs`); `VText` carries `vtext.text`. -/
inductive VNode where
  /-- `VNode::VTag { reference, vtag }` with `vtag.tag()` and `vtag.childs`. -/
  | VTag (reference : Option NodeId) (tag : String) (childs : List VNode)
  /-- `VNode::VText { reference, vtext }` with `vtext.text`. -/
  | VText (reference : Option NodeId) (text : String)

/-- The `reference` field of either variant. -/
def VNode.reference : VNode → Option NodeId
  | .VTag r _ _ => r
  | .VText r _ => r

/-- Replace the top-level `reference` field, keeping the descriptor. -/
def VNode.withRef : VNode → Option NodeId → VNode
  | .VTag _ tag childs, r => .VTag r tag childs
  | .VText _ text, r => .VText r text

mutual
/-- Number of virtual nodes in a tree (termination measure). -/
def vsize : VNode → Nat
  | .VTag _ _ childs => 1 + vsizeList childs
  | .VText _ _ => 1

/-- Number of virtual nodes in a forest. -/
def vsizeList : List VNode → Nat
  | [] => 0
  | v :: vs => vsize v + vsizeList vs
end

/-- Size of an optional virtual node. -/
def osize : Option VNode → Nat
  | none => 0
  | some v => vsize v

/-- Total size of a list of optional virtual nodes. -/
def osumList : List (Option VNode) → Nat
  | [] => 0
  | x :: xs => osize x + osumList xs

/-- Total size of a list of reconciliation pairs. -/
def psize : List (Option VNode × Option VNode) → Nat
  | [] => 0
  | (l, r) :: rest => osize l + osize r + psize rest

/-- One effect on the live tree, in the order the source issues it. -/
inductive DomOp where
  /-- `document().create_element(tag)` returning the fresh id. -/
  | createElement (id : NodeId) (tag : String)
  /-- `document().create_text_node(text)` returning the fresh id. -/
  | createTextNode (id : NodeId) (text : String)
  /-- `parent.append_child(&child)`. -/
  | appendChild (parent child : NodeId)
  /-- `parent.replace_child(&newChild, &oldChild)`. -/
  | replaceChild (parent newChild oldChild : NodeId)
  /-- `parent.remove_child(&child)` being attempted. -/
  | removeChild (parent child : NodeId)
  /-- `warn!("Node not found to remove: ...")` after a failed removal. -/
  | warnNotFound (node : NodeId)
  /-- `VTag::render` invoked on `element` with the matched-previous descriptor
  (tag and child list) exactly as it stands at the moment of the call. -/
  | renderTag (element : NodeId) (right : Option (String × List VNode))
  /-- The live text node's content being overwritten. -/
  | setNodeText (node : NodeId) (text : String)

/-- Modelled from the spec: `VTag::render` (in `vtag.rs`, not under `src/`)
synchronizes attributes and listeners on the live element; its internal
diff policy is out of scope here, so the call is recorded as a single
`renderTag` effect carrying the descriptor it receives. -/
def VTag.render (element : NodeId) (right : Option (String × List VNode)) : List DomOp :=
  [DomOp.renderTag element right]

/-- Modelled from the spec: `VText::render` (in `vtext.rs`, not under `src/`)
compares the new content against the previous generation's content and, only
if different, updates the live text node's content in place; with no previous
generation it writes nothing (content was set at creation). -/
def VText.render (element : NodeId) (text : String) (right : Option String) : List DomOp :=
  match right with
  | some rt => if text == rt then [] else [DomOp.setNodeText element text]
  | none => []

/-- `VNode::remove`: extract the live reference uniformly from either variant;
if present, ask `parent` to remove it, and log a warning (non-fatally) when the
live tree reports the node as not found.  `found` tells whether the live parent
still holds the node.  The function is total: it never fails. -/
def VNode.remove (self : VNode) (parent : NodeId) (found : NodeId → Bool) : List DomOp :=
  let optRef : Option NodeId :=
    match self with
    | .VTag reference _ _ => reference
    | .VText reference _ => reference
  match optRef with
  | none => []
  | some node =>
    if found node then [DomOp.removeChild parent node]
    else [DomOp.removeChild parent node, DomOp.warnNotFound node]

/-- The child-list padding of `apply`: compute the signed length difference and
push `None` placeholders onto the shorter side until the lengths agree. -/
def padLists {α β : Type} (lefts : List (Option α)) (rights : List (Option β)) :
    List (Option α) × List (Option β) :=
  let diff : Int := (lefts.length : Int) - (rights.length : Int)
  if 0 < diff then
    (lefts, rights ++ List.replicate diff.toNat none)
  else if diff < 0 then
    (lefts ++ List.replicate (-diff).toNat none, rights)
  else
    (lefts, rights)

mutual
/-- `VNode::apply(self, parent, last, messages)`.  Returns the reconciled node
(with its `reference` populated), the ordered trace of live-tree effects, and
the updated fresh-id counter; `Except.error` models the fatal
`panic!("redundant iterations during diff")`. -/
def VNode.apply (self : VNode) (parent : NodeId) (last : Option VNode)
    (found : NodeId → Bool) (counter : Nat) :
    Except String (VNode × List DomOp × Nat) :=
  match self with
  | .VTag _reference tag childs =>
    match last with
    | some (.VTag (some element) ltag lchilds) =>
      if tag == ltag then
        -- Reuse: copy the reference from right to left, remember the matched
        -- previous; childs of the matched previous are drained before render.
        match VNode.applyChildren element found (childs.map some) (lchilds.map some) counter with
        | .error e => .error e
        | .ok (childs1, ops1, c1) =>
          .ok (.VTag (some element) tag childs1,
               VTag.render element (some (ltag, [])) ++ ops1, c1)
      else
        -- Replace: a bound previous element of a different tag
        -- (`let wrong = element; let element = document().create_element(..)`).
        let wrong := element
        let element := counter
        match VNode.applyChildren element found (childs.map some) [] (counter + 1) with
        | .error e => .error e
        | .ok (childs1, ops1, c1) =>
          .ok (.VTag (some element) tag childs1,
               DomOp.createElement element tag :: DomOp.replaceChild parent element wrong ::
                 VTag.render element none ++ ops1, c1)
    | some (.VText (some wrong) _ltext) =>
      -- Replace: a bound previous text node.
      let element := counter
      match VNode.applyChildren element found (childs.map some) [] (counter + 1) with
      | .error e => .error e
      | .ok (childs1, ops1, c1) =>
        .ok (.VTag (some element) tag childs1,
             DomOp.createElement element tag :: DomOp.replaceChild parent element wrong ::
               VTag.render element none ++ ops1, c1)
    | some (.VTag none _ _) | some (.VText none _) | none =>
      -- Create: no previous live binding; append under the parent.
      let element := counter
      match VNode.applyChildren element found (childs.map some) [] (counter + 1) with
      | .error e => .error e
      | .ok (childs1, ops1, c1) =>
        .ok (.VTag (some element) tag childs1,
             DomOp.createElement element tag :: DomOp.appendChild parent element ::
               VTag.render element none ++ ops1, c1)
  | .VText _reference text =>
    match last with
    | some (.VText (some element) ltext) =>
      -- Reuse: move the binding; delegate the content comparison to render.
      .ok (.VText (some element) text, VText.render element text (some ltext), counter)
    | some (.VTag (some wrong) _ _) =>
      -- Replace: a bound previous element node.
      let element := counter
      .ok (.VText (some element) text,
           DomOp.createTextNode element text :: DomOp.replaceChild parent element wrong ::
             VText.render element text none, counter + 1)
    | some (.VTag none _ _) | some (.VText none _) | none =>
      -- Create: no previous live binding; append under the parent.
      let element := counter
      .ok (.VText (some element) text,
           DomOp.createTextNode element text :: DomOp.appendChild parent element ::
             VText.render element text none, counter + 1)
termination_by 3 * (vsize self + osize last)
decreasing_by
all_goals
  have hms : ∀ l : List VNode, osumList (l.map some) = vsizeList l := by
    intro l
    induction l with
    | nil => rfl
    | cons v vs ih => simp [osumList, osize, vsizeList, ih]
  simp only [hms, vsize, osize, osumList]
  omega

/-- The child-reconciliation step of `apply`: pad the shorter side with `None`
placeholders, pair positionally, and process each pair. -/
def VNode.applyChildren (element : NodeId) (found : NodeId → Bool)
    (lefts rights : List (Option VNode)) (counter : Nat) :
    Except String (List VNode × List DomOp × Nat) :=
  VNode.applyPairs element found
    ((padLists lefts rights).1.zip (padLists lefts rights).2) counter
termination_by 3 * (osumList lefts + osumList rights) + 2
decreasing_by
  have hzip : ∀ (xs ys : List (Option VNode)),
      psize (xs.zip ys) ≤ osumList xs + osumList ys := by
    intro xs
    induction xs with
    | nil => intro ys; simp [psize]
    | cons x xs ih =>
      intro ys
      cases ys with
      | nil => simp [psize]
      | cons y ys =>
        have := ih ys
        simp only [List.zip_cons_cons, psize, osumList]
        simp only [List.zip] at this
        omega
  have hrep : ∀ k : Nat, osumList (List.replicate k none) = 0 := by
    intro k
    induction k with
    | zero => rfl
    | succ n ih => simp [List.replicate, osumList, osize, ih]
  have happ : ∀ xs ys : List (Option VNode),
      osumList (xs ++ ys) = osumList xs + osumList ys := by
    intro xs ys
    induction xs with
    | nil => simp [osumList]
    | cons x xs ih => simp [osumList, ih, Nat.add_assoc]
  have hpadL : osumList (padLists lefts rights).1 = osumList lefts := by
    simp only [padLists]
    split
    · rfl
    · split
      · simp [happ, hrep]
      · rfl
  have hpadR : osumList (padLists lefts rights).2 = osumList rights := by
    simp only [padLists]
    split
    · simp [happ, hrep]
    · split
      · rfl
      · rfl
  have hmain := hzip (padLists lefts rights).1 (padLists lefts rights).2
  rw [hpadL, hpadR] at hmain
  omega

/-- The pairing loop of `apply`: `(Some, _)` recurses via `apply`,
`(None, Some)` removes the stale previous child, `(None, None)` is the fatal
`panic!` branch. -/
def VNode.applyPairs (element : NodeId) (found : NodeId → Bool)
    (pairs : List (Option VNode × Option VNode)) (counter : Nat) :
    Except String (List VNode × List DomOp × Nat) :=
  match pairs with
  | [] => .ok ([], [], counter)
  | (some l, r) :: rest =>
    match VNode.apply l element r found counter with
    | .error e => .error e
    | .ok (l1, ops1, c1) =>
      match VNode.applyPairs element found rest c1 with
      | .error e => .error e
      | .ok (ls, ops2, c2) => .ok (l1 :: ls, ops1 ++ ops2, c2)
  | (none, some r) :: rest =>
    let ops1 := r.remove element found
    match VNode.applyPairs element found rest counter with
    | .error e => .error e
    | .ok (ls, ops2, c2) => .ok (ls, ops1 ++ ops2, c2)
  | (none, none) :: _ => .error "redundant iterations during diff"
termination_by 3 * psize pairs + 1
decreasing_by
all_goals
  have hv : ∀ v : VNode, 1 ≤ vsize v := by
    intro v; cases v <;> simp [vsize]
  simp only [psize, osize]
  first
  | omega
  | (have hvl := hv l; omega)
  | (have hvr := hv r; omega)
end

mutual
/-- `PartialEq for VNode`: `VTag`/`VTag` compares the `vtag` descriptors,
`VText`/`VText` compares the `vtext` descriptors, mixed shapes are unequal;
the `reference` fields are ignored (matched with `..` in the source).
Descriptor equality for `VTag` is modelled from the spec (its `PartialEq`
lives in `vtag.rs`, not under `src/`): logical descriptors only, i.e. the
tag and, recursively, the children's descriptors. -/
def VNode.structEq : VNode → VNode → Bool
  | .VTag _ taga childsa, .VTag _ tagb childsb =>
    taga == tagb && structEqList childsa childsb
  | .VText _ texta, .VText _ textb => texta == textb
  | _, _ => false

/-- Pointwise structural equality of child lists. -/
def structEqList : List VNode → List VNode → Bool
  | [], [] => true
  | a :: as, b :: bs => VNode.structEq a b && structEqList as bs
  | _, _ => false
end

/-- Concatenation of effect traces. -/
def opsConcat : List (List DomOp) → List DomOp
  | [] => []
  | ops :: rest => ops ++ opsConcat rest

/-! ## Helper lemmas -/

/-- Closed form of the padding step: each side is extended by exactly the
(truncated) difference of lengths. -/
theorem padLists_eq {α β : Type} (ls : List (Option α)) (rs : List (Option β)) :
    padLists ls rs =
      (ls ++ List.replicate (rs.length - ls.length) none,
       rs ++ List.replicate (ls.length - rs.length) none) := by
  simp only [padLists]
  split
  · next h =>
    have h1 : rs.length - ls.length = 0 := by omega
    have h2 : ((ls.length : Int) - (rs.length : Int)).toNat = ls.length - rs.length := by
      omega
    simp [h1, h2]
  · next h =>
    split
    · next h2 =>
      have h1 : ls.length - rs.length = 0 := by omega
      have h3 : (-((ls.length : Int) - (rs.length : Int))).toNat = rs.length - ls.length := by
        omega
      simp [h1, h3]
    · next h2 =>
      have h1 : ls.length - rs.length = 0 := by omega
      have h3 : rs.length - ls.length = 0 := by omega
      simp [h1, h3]

/-- Zipping a block of `none` placeholders against surviving previous children
produces exactly the removal pairs. -/
theorem replicate_zip_map_some (xs : List VNode) :
    (List.replicate xs.length (none : Option VNode)).zip (xs.map some) =
      xs.map (fun r => ((none : Option VNode), some r)) := by
  induction xs with
  | nil => rfl
  | cons x xs ih => simp [List.replicate_succ, ih]

/-- Shape of the padded, zipped child pairs when the new list is shorter:
the first `N` positions pair positionally, the trailing `M - N` positions are
removal pairs. -/
theorem padZip_shrink (ls rs : List VNode) (h : ls.length < rs.length) :
    (padLists (ls.map some) (rs.map some)).1.zip (padLists (ls.map some) (rs.map some)).2 =
      (ls.zip (rs.take ls.length)).map (Prod.map some some) ++
        (rs.drop ls.length).map (fun r => ((none : Option VNode), some r)) := by
  rw [padLists_eq]
  simp only [List.length_map]
  have h0 : ls.length - rs.length = 0 := by omega
  have hdrop : rs.length - ls.length = (rs.drop ls.length).length := by
    simp [List.length_drop]
  rw [h0, hdrop]
  simp only [List.replicate_zero, List.append_nil]
  conv_lhs =>
    rw [show (rs.map some) = (rs.take ls.length).map some ++ (rs.drop ls.length).map some by
      rw [← List.map_append, List.take_append_drop]]
  rw [List.zip_append (by simp [List.length_take]; omega)]
  rw [List.zip_map, replicate_zip_map_some]

/-- The pairing loop distributes over list append (threading the counter). -/
theorem applyPairs_append (element : NodeId) (found : NodeId → Bool)
    (xs ys : List (Option VNode × Option VNode)) (c : Nat) :
    VNode.applyPairs element found (xs ++ ys) c =
      match VNode.applyPairs element found xs c with
      | .error e => .error e
      | .ok (ls, ops, c1) =>
        match VNode.applyPairs element found ys c1 with
        | .error e => .error e
        | .ok (ls2, ops2, c2) => .ok (ls ++ ls2, ops ++ ops2, c2) := by
  induction xs generalizing c with
  | nil =>
    simp only [List.nil_append, VNode.applyPairs]
    cases VNode.applyPairs element found ys c with
    | error e => rfl
    | ok x => rcases x with ⟨ls2, ops2, c2⟩; rfl
  | cons p xs ih =>
    rcases p with ⟨pl, pr⟩
    cases pl with
    | some l =>
      simp only [List.cons_append, VNode.applyPairs]
      cases VNode.apply l element pr found c with
      | error e => rfl
      | ok x =>
        rcases x with ⟨l1, ops1, c1⟩
        dsimp only
        rw [ih c1]
        cases VNode.applyPairs element found xs c1 with
        | error e => rfl
        | ok y =>
          rcases y with ⟨ls, ops, c2⟩
          dsimp only
          cases VNode.applyPairs element found ys c2 with
          | error e => rfl
          | ok z => rcases z with ⟨ls2, ops2, c3⟩; simp
    | none =>
      cases pr with
      | some r =>
        simp only [List.cons_append, VNode.applyPairs]
        rw [ih c]
        cases VNode.applyPairs element found xs c with
        | error e => rfl
        | ok y =>
          rcases y with ⟨ls, ops, c2⟩
          dsimp only
          cases VNode.applyPairs element found ys c2 with
          | error e => rfl
          | ok z => rcases z with ⟨ls2, ops2, c3⟩; simp
      | none =>
        simp only [List.cons_append, VNode.applyPairs]

/-- A block of removal pairs produces no reconciled child, leaves the counter
unchanged, and emits exactly the concatenated removal traces. -/
theorem applyPairs_removes (element : NodeId) (found : NodeId → Bool)
    (rs : List VNode) (c : Nat) :
    VNode.applyPairs element found (rs.map (fun r => ((none : Option VNode), some r))) c =
      .ok ([], opsConcat (rs.map (fun r => r.remove element found)), c) := by
  induction rs with
  | nil => simp [VNode.applyPairs, opsConcat]
  | cons r rs ih =>
    simp only [List.map_cons, VNode.applyPairs, ih, opsConcat]

/-- If neither input list holds a `none`, the padded zip has no `(none, none)`
position: the padding only ever extends one of the two sides. -/
theorem padZip_no_none_none {α β : Type} (ls : List (Option α)) (rs : List (Option β))
    (hl : ∀ x ∈ ls, x ≠ none) (hr : ∀ x ∈ rs, x ≠ none) :
    ∀ p ∈ (padLists ls rs).1.zip (padLists ls rs).2, p ≠ (none, none) := by
  simp only [padLists_eq]
  rintro ⟨p1, p2⟩ hp heq
  injection heq with e1 e2
  subst e1; subst e2
  rcases List.of_mem_zip hp with ⟨h1, h2⟩
  rcases List.mem_append.mp h1 with h1l | h1r
  · exact hl none h1l rfl
  · rcases List.mem_append.mp h2 with h2l | h2r
    · exact hr none h2l rfl
    · have k1 := (List.mem_replicate.mp h1r).1
      have k2 := (List.mem_replicate.mp h2r).1
      omega

/-- A mapped-`some` list holds no `none`. -/
theorem mapSome_ne_none {α : Type} (l : List α) : ∀ x ∈ l.map some, x ≠ none := by
  intro x hx
  rcases List.mem_map.mp hx with ⟨a, -, rfl⟩
  exact fun h => Option.noConfusion h

/-- `apply` never returns the fatal error: every call site of the pairing loop
builds its pair list by padding two all-`some` child lists, so the
`(none, none)` branch is unreachable throughout the recursion. -/
theorem apply_isOk_all (self : VNode) (parent : NodeId) (last : Option VNode)
    (found : NodeId → Bool) (c : Nat) :
    (VNode.apply self parent last found c).isOk = true := by
  apply VNode.apply.induct
    (fun self parent last found c => (VNode.apply self parent last found c).isOk = true)
    (fun element found lefts rights c =>
      (∀ x ∈ lefts, x ≠ none) → (∀ x ∈ rights, x ≠ none) →
        (VNode.applyChildren element found lefts rights c).isOk = true)
    (fun element found pairs c =>
      (∀ p ∈ pairs, p ≠ ((none : Option VNode), (none : Option VNode))) →
        (VNode.applyPairs element found pairs c).isOk = true)
  all_goals intros
  all_goals
    first
    | (rename_i ihm3 hl hr
       simp only [VNode.applyChildren]
       exact ihm3 (padZip_no_none_none _ _ hl hr))
    | simp_all [VNode.apply, VNode.applyPairs, VTag.render, VText.render, Except.isOk,
        Except.toBool]

/-! ## Claims -/

/-- Claim C1: when the matched previous element has `M` children and the new
node has `N < M` children, the padded child lists both have length
`max N M`; the child-pairing step reconciles exactly the first `N` previous
children positionally against the `N` new children through the recursive
`apply` (they enter the loop as `(Some, Some)` pairs, so their live bindings
are consumed by `apply`, not removed), and passes exactly the `M - N`
trailing previous children to `remove`, whose traces follow the pairing
traces. -/
theorem applyChildren_shrinkage (element : NodeId) (found : NodeId → Bool)
    (lefts rights : List VNode) (c : Nat) (h : lefts.length < rights.length) :
    ((padLists (lefts.map some) (rights.map some)).1.length
        = max lefts.length rights.length ∧
     (padLists (lefts.map some) (rights.map some)).2.length
        = max lefts.length rights.length) ∧
    VNode.applyChildren element found (lefts.map some) (rights.map some) c =
      (match VNode.applyPairs element found
          ((lefts.zip (rights.take lefts.length)).map (Prod.map some some)) c with
       | .error e => .error e
       | .ok (ls, ops, c1) =>
         .ok (ls, ops ++ opsConcat ((rights.drop lefts.length).map
               (fun r => r.remove element found)), c1)) := by
  constructor
  · rw [padLists_eq]
    constructor
    · simp only [List.length_append, List.length_map, List.length_replicate]
      omega
    · simp only [List.length_append, List.length_map, List.length_replicate]
      omega
  · simp only [VNode.applyChildren]
    rw [padZip_shrink _ _ h, applyPairs_append]
    simp only [applyPairs_removes]
    cases VNode.applyPairs element found
        ((lefts.zip (rights.take lefts.length)).map (Prod.map some some)) c with
    | error e => rfl
    | ok x => rcases x with ⟨ls, ops, c1⟩; simp

/-- Witness for C1 at `N = 1 < M = 2`: the single surviving previous child has
its binding reused, the one trailing previous child is removed. -/
theorem applyChildren_shrinkage_witness :
    (1 : Nat) < 2 ∧
    VNode.applyChildren 7 (fun _ => true)
        ([VNode.VText none "x"].map some)
        ([VNode.VText (some 4) "x", VNode.VText (some 5) "y"].map some) 9 =
      .ok ([VNode.VText (some 4) "x"], [DomOp.removeChild 7 5], 9) := by
  refine ⟨by decide, ?_⟩
  rw [(applyChildren_shrinkage 7 (fun _ => true) [VNode.VText none "x"]
    [VNode.VText (some 4) "x", VNode.VText (some 5) "y"] 9 (by decide)).2]
  simp [VNode.applyPairs, VNode.apply, VNode.remove, VText.render, opsConcat]

/-- Claim C2: reuse branch — when the previous generation is an element of the
same tag holding a live binding, that binding is moved into the new node, no
creation, replacement, or append is emitted for this node (its trace starts
directly with the renderer call, followed by the child traces), and the
previous descriptor is the matched previous handed to the renderer and whose
children feed the child pairing. -/
theorem apply_reuse_same_tag (r : Option NodeId) (tag : String)
    (childs lchilds : List VNode) (parent element : NodeId)
    (found : NodeId → Bool) (c : Nat) :
    VNode.apply (.VTag r tag childs) parent
        (some (.VTag (some element) tag lchilds)) found c =
      match VNode.applyChildren element found (childs.map some) (lchilds.map some) c with
      | .error e => .error e
      | .ok (childs1, ops1, c1) =>
        .ok (.VTag (some element) tag childs1,
             DomOp.renderTag element (some (tag, [])) :: ops1, c1) := by
  simp only [VNode.apply, beq_self_eq_true, if_true, VTag.render, List.singleton_append]

/-- Claim C3: replacement on shape change — against a bound previous element
of a different tag, or a bound previous text node, the trace at this node is
exactly create-then-replace (one `replaceChild`, no append and no remove at
this node), and the new node's binding is the freshly created element `c`,
which is not the previously bound live node. -/
theorem apply_replace_on_shape_change (r : Option NodeId) (tag ltag ltext : String)
    (childs lchilds : List VNode) (parent prevEl c : Nat) (found : NodeId → Bool)
    (hne : tag ≠ ltag) (hfresh : prevEl ≠ c) :
    (VNode.apply (.VTag r tag childs) parent
        (some (.VTag (some prevEl) ltag lchilds)) found c =
      match VNode.applyChildren c found (childs.map some) [] (c + 1) with
      | .error e => .error e
      | .ok (childs1, ops1, c1) =>
        .ok (.VTag (some c) tag childs1,
             DomOp.createElement c tag :: DomOp.replaceChild parent c prevEl ::
               DomOp.renderTag c none :: ops1, c1)) ∧
    (VNode.apply (.VTag r tag childs) parent
        (some (.VText (some prevEl) ltext)) found c =
      match VNode.applyChildren c found (childs.map some) [] (c + 1) with
      | .error e => .error e
      | .ok (childs1, ops1, c1) =>
        .ok (.VTag (some c) tag childs1,
             DomOp.createElement c tag :: DomOp.replaceChild parent c prevEl ::
               DomOp.renderTag c none :: ops1, c1)) ∧
    (∀ (node : VNode) (ops : List DomOp) (c1 : Nat),
      VNode.apply (.VTag r tag childs) parent
          (some (.VTag (some prevEl) ltag lchilds)) found c = .ok (node, ops, c1) →
        node.reference = some c ∧ node.reference ≠ some prevEl) := by
  have h1 : VNode.apply (.VTag r tag childs) parent
      (some (.VTag (some prevEl) ltag lchilds)) found c =
      match VNode.applyChildren c found (childs.map some) [] (c + 1) with
      | .error e => .error e
      | .ok (childs1, ops1, c1) =>
        .ok (.VTag (some c) tag childs1,
             DomOp.createElement c tag :: DomOp.replaceChild parent c prevEl ::
               DomOp.renderTag c none :: ops1, c1) := by
    simp only [VNode.apply, beq_iff_eq, VTag.render]
    rw [if_neg hne]
    cases VNode.applyChildren c found (childs.map some) [] (c + 1) with
    | error e => rfl
    | ok x => rcases x with ⟨childs1, ops1, c1⟩; rfl
  have h2 : VNode.apply (.VTag r tag childs) parent
      (some (.VText (some prevEl) ltext)) found c =
      match VNode.applyChildren c found (childs.map some) [] (c + 1) with
      | .error e => .error e
      | .ok (childs1, ops1, c1) =>
        .ok (.VTag (some c) tag childs1,
             DomOp.createElement c tag :: DomOp.replaceChild parent c prevEl ::
               DomOp.renderTag c none :: ops1, c1) := by
    simp only [VNode.apply, VTag.render]
    cases VNode.applyChildren c found (childs.map some) [] (c + 1) with
    | error e => rfl
    | ok x => rcases x with ⟨childs1, ops1, c1⟩; rfl
  refine ⟨h1, h2, ?_⟩
  intro node ops c1 heq
  rw [h1] at heq
  cases hc : VNode.applyChildren c found (childs.map some) [] (c + 1) with
  | error e =>
    rw [hc] at heq
    exact Except.noConfusion heq
  | ok x =>
    rcases x with ⟨childs1, ops1, c2⟩
    rw [hc] at heq
    dsimp only at heq
    injection heq with hq
    injection hq with hnode hq2
    injection hq2 with hops hcnt
    subst hnode
    constructor
    · rfl
    · intro hcp
      simp only [VNode.reference, Option.some.injEq] at hcp
      exact hfresh hcp.symm

/-- Witness for C3: reconciling `span` against a bound previous `div`. -/
theorem apply_replace_on_shape_change_witness :
    VNode.apply (.VTag none "span" []) 0 (some (.VTag (some 1) "div" [])) (fun _ => true) 10 =
      match VNode.applyChildren 10 (fun _ => true) (([] : List VNode).map some) [] 11 with
      | .error e => .error e
      | .ok (childs1, ops1, c1) =>
        .ok (.VTag (some 10) "span" childs1,
             DomOp.createElement 10 "span" :: DomOp.replaceChild 0 10 1 ::
               DomOp.renderTag 10 none :: ops1, c1) :=
  (apply_replace_on_shape_change none "span" "div" "" [] [] 0 1 10 (fun _ => true)
    (by decide) (by decide)).1

/-- Claim C4: the `(None, None)` pairing case is unreachable — padding two
all-`some` child lists never produces a position that is `none` on both
sides, and consequently `apply` never takes the fatal branch: it returns
`ok` on every input. -/
theorem apply_no_fatal_pairing :
    (∀ (lefts rights : List VNode),
       ∀ p ∈ (padLists (lefts.map some) (rights.map some)).1.zip
               (padLists (lefts.map some) (rights.map some)).2,
         p ≠ ((none : Option VNode), (none : Option VNode))) ∧
    (∀ (self : VNode) (parent : NodeId) (last : Option VNode) (found : NodeId → Bool)
       (c : Nat), (VNode.apply self parent last found c).isOk = true) :=
  ⟨fun lefts rights =>
     padZip_no_none_none (lefts.map some) (rights.map some)
       (mapSome_ne_none lefts) (mapSome_ne_none rights),
   fun self parent last found c => apply_isOk_all self parent last found c⟩

/-- Witness for C4: a concrete reconciliation returns `ok`. -/
theorem apply_no_fatal_pairing_witness :
    (VNode.apply (.VTag none "div" [.VText none "x"]) 0 none (fun _ => true) 3).isOk
      = true :=
  apply_no_fatal_pairing.2 (.VTag none "div" [.VText none "x"]) 0 none (fun _ => true) 3

/-- Claim C5: whenever `apply` returns, the new node's binding is populated
with a live node that reached its place under `parent` either by reuse of the
previous generation's binding, by an append under `parent`, or by a replace
under `parent`. -/
theorem apply_populates_binding (self : VNode) (parent : NodeId) (last : Option VNode)
    (found : NodeId → Bool) (c : Nat) (node : VNode) (ops : List DomOp) (c1 : Nat)
    (h : VNode.apply self parent last found c = .ok (node, ops, c1)) :
    ∃ n, node.reference = some n ∧
      ((∃ lnode, last = some lnode ∧ lnode.reference = some n) ∨
       DomOp.appendChild parent n ∈ ops ∨
       ∃ oldNode, DomOp.replaceChild parent n oldNode ∈ ops) := by
  cases self with
  | VTag r tag childs =>
    rw [VNode.apply.eq_def] at h
    dsimp only at h
    split at h
    all_goals try split at h
    all_goals try split at h
    all_goals
      first
      | exact Except.noConfusion h
      | (injection h with hq
         injection hq with hnode hq2
         injection hq2 with hops hcnt
         subst hnode; subst hops
         first
         | exact ⟨_, rfl, Or.inl ⟨_, rfl, rfl⟩⟩
         | exact ⟨_, rfl, Or.inr (Or.inl
             (List.mem_cons_of_mem _ (List.mem_cons_self _ _)))⟩
         | exact ⟨_, rfl, Or.inr (Or.inr
             ⟨_, List.mem_cons_of_mem _ (List.mem_cons_self _ _)⟩)⟩)
  | VText r text =>
    rw [VNode.apply.eq_def] at h
    dsimp only at h
    split at h
    all_goals
      first
      | exact Except.noConfusion h
      | (injection h with hq
         injection hq with hnode hq2
         injection hq2 with hops hcnt
         subst hnode; subst hops
         first
         | exact ⟨_, rfl, Or.inl ⟨_, rfl, rfl⟩⟩
         | exact ⟨_, rfl, Or.inr (Or.inl
             (List.mem_cons_of_mem _ (List.mem_cons_self _ _)))⟩
         | exact ⟨_, rfl, Or.inr (Or.inr
             ⟨_, List.mem_cons_of_mem _ (List.mem_cons_self _ _)⟩)⟩)

/-- Witness for C5: a fresh text node is created and appended under parent 0,
and the returned binding holds it. -/
theorem apply_populates_binding_witness :
    ∃ n, (VNode.VText (some 5) "a").reference = some n ∧
      ((∃ lnode, (none : Option VNode) = some lnode ∧ lnode.reference = some n) ∨
       DomOp.appendChild 0 n ∈ [DomOp.createTextNode 5 "a", DomOp.appendChild 0 5] ∨
       ∃ oldNode, DomOp.replaceChild 0 n oldNode ∈
         [DomOp.createTextNode 5 "a", DomOp.appendChild 0 5]) :=
  apply_populates_binding (.VText none "a") 0 none (fun _ => true) 5
    (.VText (some 5) "a") [DomOp.createTextNode 5 "a", DomOp.appendChild 0 5] 6
    (by simp [VNode.apply, VText.render])

/-- Claim C6: text reuse — against a previous text node with a live binding,
the binding is moved into the new node with no create, append, or replace,
and the only possible effect is a single content write, emitted exactly when
the new content differs from the previous content. -/
theorem apply_text_reuse (r : Option NodeId) (text ltext : String) (parent element : NodeId)
    (found : NodeId → Bool) (c : Nat) :
    VNode.apply (.VText r text) parent (some (.VText (some element) ltext)) found c =
      .ok (.VText (some element) text,
           if text == ltext then [] else [DomOp.setNodeText element text], c) := by
  simp [VNode.apply, VText.render]

/-- Claim C7: the detacher — with no binding, `remove` issues no live-tree
call at all; the binding is extracted uniformly from both variants; and when
the live parent does not hold the bound node, the removal attempt is followed
by a warning and the function still returns (it is total). -/
theorem remove_detacher (parent : NodeId) (found : NodeId → Bool) :
    (∀ (tag text : String) (childs : List VNode),
       (VNode.VTag none tag childs).remove parent found = [] ∧
       (VNode.VText none text).remove parent found = []) ∧
    (∀ (r : Option NodeId) (tag text : String) (childs : List VNode),
       (VNode.VTag r tag childs).remove parent found =
         (VNode.VText r text).remove parent found) ∧
    (∀ (n : NodeId) (tag : String) (childs : List VNode), found n = false →
       (VNode.VTag (some n) tag childs).remove parent found =
         [DomOp.removeChild parent n, DomOp.warnNotFound n]) := by
  refine ⟨fun tag text childs => ⟨rfl, rfl⟩, fun r tag text childs => rfl,
    fun n tag childs hn => ?_⟩
  simp [VNode.remove, hn]

/-- Witness for C7: a bound node whose removal the live parent rejects. -/
theorem remove_detacher_witness :
    (VNode.VTag (some 3) "div" []).remove 0 (fun _ => false) =
      [DomOp.removeChild 0 3, DomOp.warnNotFound 3] :=
  (remove_detacher 0 (fun _ => false)).2.2 3 "div" [] rfl

/-- Claim C8 counterexample: reconciling `<div>[Text "a"]` against a matched
previous `<div>` whose single child `Text "b"` is bound to live node 2.  The
trace shows the renderer call receives the matched-previous descriptor with
an **empty** child list — the reconciler drained the previous children before
invoking the renderer, and the renderer returns nothing that the pairing step
consumes — while the pairing step still reconciled against the drained child
(moving binding 2 and rewriting its text), so the children used for pairing
did not pass through the renderer call. -/
theorem render_owns_children_counterexample :
    VNode.apply (.VTag none "div" [.VText none "a"]) 0
        (some (.VTag (some 1) "div" [.VText (some 2) "b"])) (fun _ => true) 10 =
      .ok (.VTag (some 1) "div" [.VText (some 2) "a"],
           [DomOp.renderTag 1 (some ("div", [])), DomOp.setNodeText 2 "a"], 10) ∧
    DomOp.renderTag 1 (some ("div", [.VText (some 2) "b"])) ∉
      [DomOp.renderTag 1 (some ("div", [])), DomOp.setNodeText 2 "a"] := by
  constructor
  · simp [VNode.apply, VNode.applyChildren, VNode.applyPairs, padLists,
      VTag.render, VText.render]
  · simp

/-- Claim C8 amended: the reconciler drains the matched previous element's
children **before** invoking the renderer; the renderer receives the matched
previous descriptor with an empty child list and its return value is not
consumed, while the pairing loop runs on the pairs built from the drained
children. -/
theorem apply_drains_children_before_render (r : Option NodeId) (tag : String)
    (childs lchilds : List VNode) (parent element : NodeId)
    (found : NodeId → Bool) (c : Nat) :
    VNode.apply (.VTag r tag childs) parent
        (some (.VTag (some element) tag lchilds)) found c =
      match VNode.applyPairs element found
          ((padLists (childs.map some) (lchilds.map some)).1.zip
           (padLists (childs.map some) (lchilds.map some)).2) c with
      | .error e => .error e
      | .ok (childs1, ops1, c1) =>
        .ok (.VTag (some element) tag childs1,
             VTag.render element (some (tag, [])) ++ ops1, c1) := by
  simp only [VNode.apply, VNode.applyChildren, beq_self_eq_true, if_true]

/-- Claim C9: structural equality compares only the logical descriptors —
replacing either node's top-level live binding never changes the verdict,
an element is never equal to a text node, two elements compare by tag and
children descriptors, and two text nodes compare by content. -/
theorem structEq_logical_descriptors :
    (∀ (a b : VNode) (ra rb : Option NodeId),
       (a.withRef ra).structEq (b.withRef rb) = a.structEq b) ∧
    (∀ (ra rb : Option NodeId) (tag text : String) (childs : List VNode),
       (VNode.VTag ra tag childs).structEq (.VText rb text) = false ∧
       (VNode.VText rb text).structEq (.VTag ra tag childs) = false) ∧
    (∀ (ra rb : Option NodeId) (taga tagb : String) (childsa childsb : List VNode),
       (VNode.VTag ra taga childsa).structEq (.VTag rb tagb childsb) =
         ((taga == tagb) && structEqList childsa childsb)) ∧
    (∀ (ra rb : Option NodeId) (texta textb : String),
       (VNode.VText ra texta).structEq (.VText rb textb) = (texta == textb)) := by
  refine ⟨?_, ?_, ?_, ?_⟩
  · intro a b ra rb
    cases a <;> cases b <;> simp [VNode.withRef, VNode.structEq]
  · intro ra rb tag text childs
    exact ⟨by simp [VNode.structEq], by simp [VNode.structEq]⟩
  · intro ra rb taga tagb childsa childsb
    simp [VNode.structEq]
  · intro ra rb texta textb
    simp [VNode.structEq]

/-- Claim C10: `apply` never reads the new node's incoming binding — the
result (returned node, effect trace, and counter) is the same whatever
binding the new node arrives with, so a pre-populated binding is silently
overwritten with no detach or removal of the previously bound live node. -/
theorem apply_overwrites_binding (self : VNode) (b : Option NodeId) (parent : NodeId)
    (last : Option VNode) (found : NodeId → Bool) (c : Nat) :
    VNode.apply (self.withRef b) parent last found c =
      VNode.apply self parent last found c := by
  cases self <;> simp only [VNode.withRef, VNode.apply.eq_def]
